import Mathlib

/-!
Verification of the mop3 gateway (Mastodon/Bluesky to POP3/SMTP) against its
specification.  Rust strings are shallowly embedded as `List Char`; byte
lengths (`str::len`) are the summed UTF-8 sizes of the characters.  Functions
that in Rust recurse with a variable step (`str::replace`, the tag-stripping
regex pass, link proxying) are defined with an explicit fuel argument equal to
the input length so that they are structurally recursive and kernel-evaluable;
fuel-monotonicity lemmas below recover the natural unfolding equations.
-/

namespace Mop3

/-- Rust strings, embedded as lists of characters. -/
abbrev Str := List Char

/-- Coerce a Lean string literal to the embedding. -/
def str (s : String) : Str := s.data

/-- Byte length of a string, as Rust `str::len` reports it (UTF-8 bytes). -/
def byteLen (s : Str) : Nat := (s.map Char.utf8Size).sum

/-- Decimal rendering of a number, as Rust `format!` does. -/
def natStr (n : Nat) : Str := (Nat.repr n).data

/-- Boolean test that `pat` is a leading segment of `s`. -/
def isPre : Str → Str → Bool
  | [], _ => true
  | _ :: _, [] => false
  | a :: as, b :: bs => a == b && isPre as bs

/-- Fuelled core of Rust `str::replace`: replace non-overlapping occurrences of
`pat` by `rep`, scanning left to right in a single pass.  The fuel only bounds
the recursion; `replaceAll` supplies enough for the whole input. -/
def replaceAllFuel (pat rep : Str) : Nat → Str → Str
  | 0, s => s
  | _ + 1, [] => []
  | f + 1, c :: rest =>
    if isPre pat (c :: rest) then
      rep ++ replaceAllFuel pat rep f (List.drop (pat.length - 1) rest)
    else
      c :: replaceAllFuel pat rep f rest

/-- Rust `str::replace` (single left-to-right pass, non-overlapping matches). -/
def replaceAll (pat rep s : Str) : Str := replaceAllFuel pat rep s.length s

/-- Whether `pat` occurs somewhere in `s` (i.e. `replaceAll` has a match). -/
def hasMatch (pat : Str) : Str → Bool
  | [] => false
  | c :: rest => isPre pat (c :: rest) || hasMatch pat rest

/-- Drop everything up to and including the first `>`; `none` if there is no
`>`.  Used to model one match of the regex `<[^>]*>` (greedy `[^>]*` forces the
match to end at the first `>` after the `<`). -/
def dropTag : Str → Option Str
  | [] => none
  | c :: rest => if c = '>' then some rest else dropTag rest

/-- Fuelled core of the generic tag-stripping pass `Regex::new("<[^>]*>")`
`.replace_all(text, "")`: every segment from a `<` to the next `>` is removed;
a `<` with no later `>` is kept. -/
def stripTagsFuel : Nat → Str → Str
  | 0, s => s
  | _ + 1, [] => []
  | f + 1, c :: rest =>
    if c = '<' then
      match dropTag rest with
      | some after => stripTagsFuel f after
      | none => c :: stripTagsFuel f rest
    else
      c :: stripTagsFuel f rest

/-- The tag-stripping regex pass of `html_to_text`. -/
def stripTags (s : Str) : Str := stripTagsFuel s.length s

/-- Split at every character satisfying `p`; the separators are consumed and
empty chunks are kept (like Rust `str::split`). -/
def splitP (p : Char → Bool) : Str → List Str
  | [] => [[]]
  | c :: rest =>
    if p c then [] :: splitP p rest
    else
      match splitP p rest with
      | l :: ls => (c :: l) :: ls
      | [] => [[c]]

/-- Split at newline characters, keeping empty chunks. -/
def splitOnNL (s : Str) : List Str := splitP (fun c => c == '\n') s

/-- Remove a single trailing carriage return (Rust `str::lines` does this to
each chunk). -/
def stripCR (l : Str) : Str :=
  if l.getLast? = some '\r' then l.dropLast else l

/-- Rust `str::lines`: split on `\n`, drop the final empty chunk produced by a
trailing newline, and strip one trailing `\r` from every line. -/
def rustLines (s : Str) : List Str :=
  if s = [] then []
  else
    let ps := splitOnNL s
    (if ps.getLast? = some [] then ps.dropLast else ps).map stripCR

/-- Rust `str::trim_start` (whitespace here is the ASCII subset
space/tab/CR/LF; the claims' inputs contain no other white space). -/
def trimStartWs (s : Str) : Str := s.dropWhile Char.isWhitespace

/-- Rust `str::trim_end`. -/
def trimEndWs (s : Str) : Str := (s.reverse.dropWhile Char.isWhitespace).reverse

/-- Rust `str::trim`. -/
def trimWs (s : Str) : Str := trimEndWs (trimStartWs s)

/-- Join chunks with a `\n` separator, as `Vec::join("\n")` does. -/
def joinNL : List Str → Str
  | [] => []
  | [l] => l
  | l :: l2 :: ls => l ++ '\n' :: joinNL (l2 :: ls)

/-- The CRLF line terminator. -/
def crlf : Str := str "\r\n"

/-- Concatenate lines, terminating every line with CRLF (the POP3 handlers
push `line` then `"\r\n"` for each line). -/
def joinCRLF (ls : List Str) : Str := (ls.map (fun l => l ++ crlf)).flatten

/-! ## Content converter: `src/pop3/converter.rs`

`html_to_text`, `apply_proxy_to_links`, `parse_timestamp` and the post→email
resolution below embed the public converter module `src/pop3/converter.rs`
(the implementation the specification §4.3 describes; `src/pop3/server.rs`
additionally contains earlier private duplicates of some of these functions,
which are not the subject of the claims' cited converter lines). -/

/-- A single newline, the replacement of the tag substitutions. -/
def nl : Str := str "\n"

/-- Triple newline, the pattern of the blank-line collapsing pass. -/
def nl3 : Str := str "\n\n\n"

/-- Double newline, its replacement. -/
def nl2 : Str := str "\n\n"

/-- The leading chain of literal substitutions in `html_to_text`
(converter.rs lines 176-182): `<br>`, `<br/>`, `<br />`, `</p>`, `</div>`,
`</li>` each become a newline, in this order. -/
def tagNewlines (s : Str) : Str :=
  replaceAll (str "</li>") nl
    (replaceAll (str "</div>") nl
      (replaceAll (str "</p>") nl
        (replaceAll (str "<br />") nl
          (replaceAll (str "<br/>") nl
            (replaceAll (str "<br>") nl s)))))

/-- The entity-decoding chain of `html_to_text` (converter.rs lines 190-197):
`&lt; &gt; &amp; &quot; &apos; &#39; &nbsp;`, in this order. -/
def decodeEntities (s : Str) : Str :=
  replaceAll (str "&nbsp;") (str " ")
    (replaceAll (str "&#39;") (str "\x27")
      (replaceAll (str "&apos;") (str "\x27")
        (replaceAll (str "&quot;") (str "\"")
          (replaceAll (str "&amp;") (str "&")
            (replaceAll (str "&gt;") (str ">")
              (replaceAll (str "&lt;") (str "<") s))))))

/-- Per-line trailing-whitespace removal of `html_to_text` (converter.rs lines
200-204): `text.lines().map(trim_end).collect().join("\n")`. -/
def trimLineEnds (s : Str) : Str := joinNL ((rustLines s).map trimEndWs)

/-- converter.rs `html_to_text` (lines 174-210): tag substitutions, generic
tag stripping, entity decoding, per-line trailing-whitespace removal, a single
`replace("\n\n\n", "\n\n")` pass, and a final trim. -/
def html_to_text (html : Str) : Str :=
  trimWs (replaceAll nl3 nl2 (trimLineEnds (decodeEntities (stripTags (tagNewlines html)))))

/-! Spec-side rendering of the claim C5 wording, for comparison with
`html_to_text`. -/

/-- Emit a run of `n` pending newlines, collapsed to exactly two when the run
has length three or more.  Modelled from the spec: "collapse 3+ consecutive
newlines to 2". -/
def emitNLs (n : Nat) : Str := if 3 ≤ n then nl2 else List.replicate n '\n'

/-- Worker for `collapseRuns`; `pending` counts the newlines of the current
run that have been read but not yet emitted. -/
def collapseRunsGo : Nat → Str → Str
  | pending, [] => emitNLs pending
  | pending, c :: rest =>
    if c = '\n' then collapseRunsGo (pending + 1) rest
    else emitNLs pending ++ c :: collapseRunsGo 0 rest

/-- Modelled from the spec: collapse every run of three or more consecutive
newlines to exactly two. -/
def collapseRuns (s : Str) : Str := collapseRunsGo 0 s

/-- Modelled from the spec (claim C5's wording): map `<br>`, `<br/>`, `</p>`,
`</div>`, `</li>` to newline (the list in the claim — note it does not include
`<br />` with a space). -/
def tagNewlinesSpec (s : Str) : Str :=
  replaceAll (str "</li>") nl
    (replaceAll (str "</div>") nl
      (replaceAll (str "</p>") nl
        (replaceAll (str "<br/>") nl
          (replaceAll (str "<br>") nl s))))

/-- Modelled from the spec: the markup-stripping pipeline exactly as claim C5
words it — the five listed tag substitutions, the generic tag-stripping pass,
the six standard entities, per-line trailing-whitespace trimming, collapsing
every run of 3+ newlines to exactly 2, and a final trim. -/
def html_to_text_spec (html : Str) : Str :=
  trimWs (collapseRuns (trimLineEnds (decodeEntities (stripTags (tagNewlinesSpec html)))))

/-- Amended pipeline for claim C5: identical to the claim's wording except
that `<br />` (with a space) is also mapped to a newline and the newline
collapsing is the single left-to-right `replace("\n\n\n", "\n\n")` pass. -/
def html_to_text_amended (html : Str) : Str :=
  trimWs (replaceAll nl3 nl2 (trimLineEnds (decodeEntities (stripTags (tagNewlines html)))))

/-- Characters the proxy regex `https?://[^\s\]<>]+` accepts after the scheme:
anything but whitespace, `]`, `<`, `>`. -/
def urlChar (c : Char) : Bool := !(c.isWhitespace || c == ']' || c == '<' || c == '>')

/-- One attempted match of `https?://[^\s\]<>]+` at the head of `s`: the
scheme (preferring `https://`), then a non-empty greedy run of URL characters.
Returns the matched text and the remainder. -/
def matchHttp (s : Str) : Option (Str × Str) :=
  if isPre (str "https://") s then
    let rest := List.drop 8 s
    let run := rest.takeWhile urlChar
    if run.isEmpty then none else some (str "https://" ++ run, rest.dropWhile urlChar)
  else if isPre (str "http://") s then
    let rest := List.drop 7 s
    let run := rest.takeWhile urlChar
    if run.isEmpty then none else some (str "http://" ++ run, rest.dropWhile urlChar)
  else none

/-- Fuelled scan of `apply_proxy_to_links`: every leftmost non-overlapping
URL match is replaced by the proxy followed by the match. -/
def applyProxyFuel (proxy : Str) : Nat → Str → Str
  | 0, s => s
  | _ + 1, [] => []
  | f + 1, c :: rest =>
    match matchHttp (c :: rest) with
    | some (m, after) => proxy ++ m ++ applyProxyFuel proxy f after
    | none => c :: applyProxyFuel proxy f rest

/-- converter.rs `apply_proxy_to_links` (lines 213-227): prepend the proxy to
every `http(s)://…` URL. -/
def apply_proxy_to_links (content proxy : Str) : Str :=
  applyProxyFuel proxy content.length content

/-! ## Data model (`src/models.rs`) and configuration (`src/config.rs`) -/

/-- `MastodonAccount` of models.rs. -/
structure MAccount where
  display_name : Str
  username : Str
  acct : Str

/-- `MastodonStatus` of models.rs (the media-attachment list, which only
feeds the IO download path, is omitted). -/
inductive MStatus : Type where
  | mk (id content created_at url : Str) (reblog : Option MStatus)
      (in_reply_to_id : Option Str) (account : MAccount) : MStatus

/-- Field accessor: `id`. -/
def MStatus.id : MStatus → Str
  | .mk i _ _ _ _ _ _ => i

/-- Field accessor: `content`. -/
def MStatus.content : MStatus → Str
  | .mk _ c _ _ _ _ _ => c

/-- Field accessor: `created_at`. -/
def MStatus.created_at : MStatus → Str
  | .mk _ _ d _ _ _ _ => d

/-- Field accessor: `url`. -/
def MStatus.url : MStatus → Str
  | .mk _ _ _ u _ _ _ => u

/-- Field accessor: `reblog`. -/
def MStatus.reblog : MStatus → Option MStatus
  | .mk _ _ _ _ r _ _ => r

/-- Field accessor: `in_reply_to_id`. -/
def MStatus.in_reply_to_id : MStatus → Option Str
  | .mk _ _ _ _ _ rid _ => rid

/-- Field accessor: `account`. -/
def MStatus.account : MStatus → MAccount
  | .mk _ _ _ _ _ _ a => a

/-- `BlueskyPost` of models.rs (the `reply` JSON blob is omitted). -/
structure BlueskyPost where
  uri : Str
  text : Str
  created_at : Str

/-- The `Post` tagged union of models.rs. -/
inductive Post : Type where
  | Mastodon : MStatus → Post
  | Bluesky : BlueskyPost → Post

/-- The configuration fields consumed by the converter (config.rs). -/
structure Config where
  html : Bool
  ascii : Bool
  proxy : Option Str
  url : Bool

/-! ## Post → email conversion (`src/pop3/converter.rs`) -/

/-- converter.rs lines 55-63: pick content, subject and source URL from the
boosted status when the post is a reblog, else from the post itself. -/
def resolveSource (post : MStatus) : Str × Str × Str :=
  match post.reblog with
  | some reblog =>
    (reblog.content, str "Boost from " ++ reblog.account.display_name, reblog.url)
  | none => (post.content, str "Post", post.url)

/-- converter.rs lines 66-83: the content transformation chain applied to the
resolved content.  `dz` abstracts the external `deunicode` transliteration. -/
def contentStages (dz : Str → Str) (config : Config) (content postUrl : Str) : Str :=
  let c1 := if !config.html then html_to_text content else content
  let c2 := if config.ascii then dz c1 else c1
  let c3 :=
    match config.proxy with
    | some p => apply_proxy_to_links c2 p
    | none => c2
  if config.url then c3 ++ str "\n\n---\nOriginal: " ++ postUrl else c3

/-- The message body produced by `convert_mastodon_post_to_email`
(converter.rs lines 49-101, up to the serialisation of the body text). -/
def convertBody (dz : Str → Str) (config : Config) (post : MStatus) : Str :=
  contentStages dz config (resolveSource post).1 (resolveSource post).2.2

/-- The Subject header produced by `convert_mastodon_post_to_email`. -/
def convertSubject (post : MStatus) : Str := (resolveSource post).2.1

/-- converter.rs `parse_timestamp` (lines 230-246): try the three chrono
formats `%Y-%m-%dT%H:%M:%S%.3fZ`, `%Y-%m-%dT%H:%M:%SZ`, `%Y-%m-%dT%H:%M:%S%z`
in order and return the first success.  The chrono parsers for the individual
format strings are external and passed as the list `parsers`. -/
def tryFormats : List (Str → Option Int) → Str → Option Int
  | [], _ => none
  | p :: ps, s =>
    match p s with
    | some t => some t
    | none => tryFormats ps s

/-- converter.rs `parse_timestamp`: first matching format wins; an input no
format accepts yields the current time `now` (passed in, as `Utc::now()` is
external), never an error. -/
def parse_timestamp (p1 p2 p3 : Str → Option Int) (now : Int) (s : Str) : Int :=
  match tryFormats [p1, p2, p3] s with
  | some t => t
  | none => now

/-- converter.rs `convert_posts_to_emails` (lines 15-46): walk the timeline in
order; a Mastodon post is converted (`conv` abstracts the per-post converter,
returning `none` on a conversion failure, which is logged and skipped); a
Bluesky post is always skipped with a debug log. -/
def convert_posts_to_emails (conv : Config → MStatus → Option Str) (config : Config) :
    List Post → List Str
  | [] => []
  | Post.Mastodon m :: rest =>
    match conv config m with
    | some email => email :: convert_posts_to_emails conv config rest
    | none => convert_posts_to_emails conv config rest
  | Post.Bluesky _ :: rest => convert_posts_to_emails conv config rest

/-! ## POP3 transaction handlers (`src/pop3/server.rs`, `handle_pop3_commands`) -/

/-- `emails[index - 1]` under the handler's bound check. -/
def payload (emails : List Str) (index : Nat) : Str := emails.getD (index - 1) []

/-- The message sizes summed into `post_size` (server.rs line 82) and reported
as the second number of `STAT`. -/
def statTotal (emails : List Str) : Nat := (emails.map byteLen).sum

/-- server.rs lines 343-346: the `STAT` response line. -/
def handleSTAT (emails : List Str) : Str :=
  str "+OK " ++ natStr emails.length ++ str " " ++ natStr (statTotal emails) ++ crlf

/-- server.rs lines 348-358: the `LIST index` response line (with a parsed
index; a malformed index string is answered separately). -/
def handleLIST (emails : List Str) (index : Nat) : Str :=
  if 0 < index ∧ index ≤ emails.length then
    str "+OK " ++ natStr index ++ str " " ++ natStr (byteLen (payload emails index)) ++ crlf
  else str "-ERR no such message\r\n"

/-- server.rs lines 373-387: everything `RETR index` writes — the
`+OK n octets` line, the message bytes, and the `\r\n.\r\n` terminator. -/
def handleRETR (emails : List Str) (index : Nat) : Str :=
  if 0 < index ∧ index ≤ emails.length then
    str "+OK " ++ natStr (byteLen (payload emails index)) ++ str " octets\r\n"
      ++ payload emails index ++ str "\r\n.\r\n"
  else str "-ERR no such message\r\n"

/-- The message content `RETR` streams between its `+OK` line and the
terminating `CRLF.CRLF` (`none` out of range). -/
def retrContent (emails : List Str) (index : Nat) : Option Str :=
  if 0 < index ∧ index ≤ emails.length then some (payload emails index) else none

/-- server.rs lines 418-436: the accumulation loop of `TOP`.  `inBody` flips
when an empty line is seen; once in the body each line (including the blank
separator itself) is counted against `limit` before being appended. -/
def topLoop (limit : Nat) : List Str → Nat → Bool → Str → Str
  | [], _, _, out => out
  | l :: ls, cnt, inBody, out =>
    let inBody2 := inBody || l.isEmpty
    if inBody2 then
      if limit ≤ cnt then out
      else topLoop limit ls (cnt + 1) inBody2 (out ++ l ++ crlf)
    else topLoop limit ls cnt inBody2 (out ++ l ++ crlf)

/-- The `output` string `TOP` builds for one message and streams before its
`.\r\n` terminator. -/
def topOutput (email : Str) (n : Nat) : Str := topLoop n (rustLines email) 0 false []

/-- server.rs lines 411-451: the content `TOP index n` streams (`none` out of
range, answered with `-ERR no such message`). -/
def handleTOPContent (emails : List Str) (index n : Nat) : Option Str :=
  if 0 < index ∧ index ≤ emails.length then
    some (topOutput (payload emails index) n)
  else none

/-- Modelled from the spec (claim C2's wording): the header block — the header
lines and the blank separator line when present. -/
def headerBlock (e : Str) : List Str :=
  (rustLines e).takeWhile (fun l => !l.isEmpty) ++
    ((rustLines e).dropWhile (fun l => !l.isEmpty)).take 1

/-- Modelled from the spec: the body lines of a message (everything after the
blank separator). -/
def bodyLines (e : Str) : List Str :=
  ((rustLines e).dropWhile (fun l => !l.isEmpty)).drop 1

/-- Modelled from the spec (claim C2's wording): `TOP`'s payload is exactly
the header block plus the first `n` body lines. -/
def topSpec (e : Str) (n : Nat) : Str := joinCRLF (headerBlock e ++ (bodyLines e).take n)

/-! ## POP3 login loop (`src/pop3/server.rs`, `get_pop3_login`) -/

/-- Rust `str::split_whitespace`: maximal runs of non-whitespace. -/
def rustSplitWs (s : Str) : List Str :=
  (splitP Char.isWhitespace s).filter (fun l => !l.isEmpty)

/-- The `Credentials` pair of models.rs. -/
structure Credentials where
  username : Str
  password : Str

/-- Outcome of one iteration of `get_pop3_login`'s loop. -/
inductive LoginResult : Type where
  | proceed : LoginResult
  | done : Credentials → LoginResult
  | quit : LoginResult

/-- server.rs `get_pop3_login` (lines 282-323), one loop iteration: the new
credential state, the response lines written during the iteration, and
whether the loop continues, returns the credentials, or errors out on QUIT.
The source assigns `cred.password = password` and then tests
`!cred.username.is_empty() && !cred.password.is_empty()`; as the password
field just received the token `p`, that test is `cred.username ≠ [] ∧ p ≠ []`
here. -/
def loginStep (cred : Credentials) (cmd : Str) : Credentials × List Str × LoginResult :=
  match rustSplitWs cmd with
  | [] => (cred, [str "-ERR unknown command\r\n"], LoginResult.proceed)
  | w :: args =>
    if w = str "USER" then
      match args with
      | u :: _ => ({ cred with username := u }, [str "+OK send PASS\r\n"], LoginResult.proceed)
      | [] => (cred, [], LoginResult.proceed)
    else if w = str "PASS" then
      match args with
      | p :: _ =>
        if cred.username ≠ [] ∧ p ≠ [] then
          ({ cred with password := p }, [], LoginResult.done { cred with password := p })
        else ({ cred with password := p }, [], LoginResult.proceed)
      | [] => (cred, [], LoginResult.proceed)
    else if w = str "QUIT" then (cred, [str "+OK bye\r\n"], LoginResult.quit)
    else (cred, [str "-ERR unknown command\r\n"], LoginResult.proceed)

/-! ## SMTP intake (`src/smtp/server.rs`) -/

/-- smtp/server.rs `extract_email_addr` (lines 118-128): the first `<` and the
first `>` of the whole line; the slice between them, provided the `<` comes
first. -/
def extract_email_addr (command : Str) : Option Str :=
  match command.findIdx? (fun c => c = '<'), command.findIdx? (fun c => c = '>') with
  | some start, some stop =>
    if start < stop then some ((command.drop (start + 1)).take (stop - (start + 1)))
    else none
  | _, _ => none

/-- The unconditional `MAIL` reply (smtp/server.rs line 62). -/
def mailReply : Str := str "250 OK\r\n"

/-- smtp/server.rs lines 57-63: the `MAIL` arm — update the stored sender only
when the address parses, and reply `250 OK` either way. -/
def mailStep (from0 : Str) (command : Str) : Str × Str :=
  match extract_email_addr command with
  | some a => (a, mailReply)
  | none => (from0, mailReply)

/-- Modelled from the spec (claim C8's wording): the sender is the text
between the first `<` and the first `>` after it. -/
def specExtract (command : Str) : Option Str :=
  match command.findIdx? (fun c => c = '<') with
  | none => none
  | some start =>
    match (command.drop (start + 1)).findIdx? (fun c => c = '>') with
    | none => none
    | some k => some ((command.drop (start + 1)).take k)

/-- smtp/server.rs lines 73-88: the `DATA` accumulation loop over the received
lines — stop at a line whose trim is a single dot, otherwise append the line
verbatim (the code performs no dot-unstuffing). -/
def dataLoop : List Str → Str → Str
  | [], acc => acc
  | l :: ls, acc => if trimWs l = str "." then acc else dataLoop ls (acc ++ l)

/-! ## Helper lemmas -/

theorem getD_range_map (l : List Str) :
    (List.range l.length).map (fun k => l.getD k []) = l := by
  induction l with
  | nil => rfl
  | cons a t ih =>
    rw [List.length_cons, List.range_succ_eq_map, List.map_cons, List.map_map]
    have hc : ((fun k => (a :: t).getD k []) ∘ Nat.succ) = fun k => t.getD k [] := by
      funext k; rfl
    rw [hc, ih]
    rfl

/-! ## Claim C1: STAT/LIST sizes versus RETR content -/

/-- C1: for every mailbox and every index `i` in `[1, N]`, the byte length in
the `LIST i` response line is the byte length of exactly the content `RETR i`
streams between its `+OK n octets` line and the terminating `CRLF.CRLF`; for
`i` outside `[1, N]` both commands answer `-ERR no such message`; and the
second number of `STAT` is the sum of those per-index byte lengths. -/
theorem c1_list_retr_stat (emails : List Str) (i : Nat) :
    (0 < i ∧ i ≤ emails.length →
      retrContent emails i = some (payload emails i) ∧
      handleLIST emails i =
        str "+OK " ++ natStr i ++ str " " ++ natStr (byteLen (payload emails i)) ++ crlf ∧
      handleRETR emails i =
        str "+OK " ++ natStr (byteLen (payload emails i)) ++ str " octets\r\n"
          ++ payload emails i ++ str "\r\n.\r\n") ∧
    (¬(0 < i ∧ i ≤ emails.length) →
      retrContent emails i = none ∧
      handleLIST emails i = str "-ERR no such message\r\n" ∧
      handleRETR emails i = str "-ERR no such message\r\n") ∧
    statTotal emails =
      ((List.range emails.length).map (fun k => byteLen (payload emails (k + 1)))).sum := by
  refine ⟨fun h => ?_, fun h => ?_, ?_⟩
  · simp [retrContent, handleLIST, handleRETR, h]
  · simp [retrContent, handleLIST, handleRETR, h]
  · have : (fun k => byteLen (payload emails (k + 1))) =
        (fun k => byteLen (emails.getD k [])) := by
      funext k; simp [payload]
    rw [statTotal, this]
    have h2 : (List.range emails.length).map (fun k => byteLen (emails.getD k [])) =
        ((List.range emails.length).map (fun k => emails.getD k [])).map byteLen := by
      rw [List.map_map]; rfl
    rw [h2, getD_range_map]

/-- Witness for C1 at a concrete mailbox: index 1 is in range for `["ab"]`
and index 2 is out of range. -/
theorem c1_witness :
    handleLIST [str "ab"] 1 =
      str "+OK " ++ natStr 1 ++ str " " ++ natStr (byteLen (payload [str "ab"] 1)) ++ crlf ∧
    handleRETR [str "ab"] 2 = str "-ERR no such message\r\n" :=
  ⟨((c1_list_retr_stat [str "ab"] 1).1 (by decide)).2.1,
   ((c1_list_retr_stat [str "ab"] 2).2.1 (by decide)).2.2⟩

/-! ## Claim C3: SMTP DATA dot-unstuffing -/

/-- C3 (code bug): the DATA loop stores a received `..text` line verbatim —
no dot-unstuffing is performed, so the stored body is `..text\r\n`, not the
`.text` the claim (and RFC 5321) require; the lone-dot line does terminate
the transaction and is not appended (nor is anything after it). -/
theorem c3_dot_unstuffing_missing :
    dataLoop [str "..text\r\n", str ".\r\n", str "after\r\n"] [] = str "..text\r\n" ∧
    dataLoop [str "..text\r\n", str ".\r\n", str "after\r\n"] [] ≠ str ".text\r\n" := by
  decide

/-! ## Claim C7: timestamp parsing order and fallback -/

/-- C7: `parse_timestamp` tries the three formats in order and the first
match wins; when all three fail the result is the current time `now`; the
function is total, so parsing never returns an error. -/
theorem c7_parse_timestamp_order (p1 p2 p3 : Str → Option Int) (now : Int) (s : Str) :
    (∀ t, p1 s = some t → parse_timestamp p1 p2 p3 now s = t) ∧
    (p1 s = none → ∀ t, p2 s = some t → parse_timestamp p1 p2 p3 now s = t) ∧
    (p1 s = none → p2 s = none → ∀ t, p3 s = some t → parse_timestamp p1 p2 p3 now s = t) ∧
    (p1 s = none → p2 s = none → p3 s = none → parse_timestamp p1 p2 p3 now s = now) := by
  refine ⟨fun t h1 => ?_, fun h1 t h2 => ?_, fun h1 h2 t h3 => ?_, fun h1 h2 h3 => ?_⟩ <;>
    simp [parse_timestamp, tryFormats, *]

/-- Witness for C7: with a first parser that fails and a second that returns
42, the result is 42; with all three failing, the result is the fallback 7. -/
theorem c7_witness :
    parse_timestamp (fun _ => none) (fun _ => some 42) (fun _ => none) 7 (str "x") = 42 ∧
    parse_timestamp (fun _ => none) (fun _ => none) (fun _ => none) 7 (str "x") = 7 :=
  ⟨(c7_parse_timestamp_order (fun _ => none) (fun _ => some 42) (fun _ => none) 7
      (str "x")).2.1 rfl 42 rfl,
   (c7_parse_timestamp_order (fun _ => none) (fun _ => none) (fun _ => none) 7
      (str "x")).2.2.2 rfl rfl rfl⟩

/-! ## Claim C9: Bluesky posts are dropped unconditionally -/

/-- C9: for every configuration (including Bluesky API mode — the loop never
consults the mode) and every per-post converter, the mailbox is exactly the
successfully converted Mastodon posts in timeline order, and a timeline of
only Bluesky posts yields an empty mailbox. -/
theorem c9_bluesky_dropped (conv : Config → MStatus → Option Str) (config : Config)
    (posts : List Post) :
    convert_posts_to_emails conv config posts =
      posts.filterMap (fun p =>
        match p with
        | Post.Mastodon m => conv config m
        | Post.Bluesky _ => none) ∧
    ((∀ p ∈ posts, ∃ b, p = Post.Bluesky b) → convert_posts_to_emails conv config posts = []) := by
  constructor
  · induction posts with
    | nil => rfl
    | cons p rest ih =>
      cases p with
      | Mastodon m =>
        cases h : conv config m <;>
          simp [convert_posts_to_emails, List.filterMap_cons, h, ih]
      | Bluesky b => simpa [convert_posts_to_emails, List.filterMap_cons] using ih
  · induction posts with
    | nil => exact fun _ => rfl
    | cons p rest ih =>
      intro hall
      obtain ⟨b, rfl⟩ := hall p (List.mem_cons_self p rest)
      have hr : convert_posts_to_emails conv config (Post.Bluesky b :: rest) =
          convert_posts_to_emails conv config rest := rfl
      rw [hr]
      exact ih (fun q hq => hall q (List.mem_cons_of_mem _ hq))

/-- Witness for C9: a timeline holding a single Bluesky post converts to the
empty mailbox, for an arbitrary concrete converter and configuration. -/
theorem c9_witness :
    convert_posts_to_emails (fun _ m => some m.content) ⟨false, false, none, false⟩
      [Post.Bluesky ⟨str "at://x", str "hi", str "2024"⟩] = [] :=
  (c9_bluesky_dropped (fun _ m => some m.content) ⟨false, false, none, false⟩
      [Post.Bluesky ⟨str "at://x", str "hi", str "2024"⟩]).2
    (fun p hp => by
      cases hp with
      | head => exact ⟨_, rfl⟩
      | tail _ h => cases h)

/-! ## Claim C10: pre-authentication login loop responses -/

/-- C10: in `get_pop3_login`, a `USER` command without an argument writes no
response line; a `PASS` command writes no response line in any case; and the
loop returns credentials only when both the username and the password are
non-empty. -/
theorem c10_login_silent (cred : Credentials) (cmd : Str) :
    (rustSplitWs cmd = [str "USER"] → (loginStep cred cmd).2.1 = []) ∧
    (∀ rest, rustSplitWs cmd = str "PASS" :: rest → (loginStep cred cmd).2.1 = []) ∧
    (∀ c, (loginStep cred cmd).2.2 = LoginResult.done c →
      c.username ≠ [] ∧ c.password ≠ []) := by
  refine ⟨fun h => ?_, fun rest h => ?_, fun c h => ?_⟩
  · simp [loginStep, h]
  · have hpu : ¬(str "PASS" = str "USER") := by decide
    rcases rest with _ | ⟨p, ps⟩
    · simp [loginStep, h]
    · simp only [loginStep, h, hpu, if_false, eq_self_iff_true, if_true]
      split <;> rfl
  · unfold loginStep at h
    rcases hs : rustSplitWs cmd with _ | ⟨w, args⟩ <;> rw [hs] at h
    · simp at h
    · by_cases h1 : w = str "USER"
      · rcases args with _ | ⟨u, rest⟩ <;> simp [h1] at h
      · by_cases h2 : w = str "PASS"
        · rcases args with _ | ⟨p, rest⟩
          · simp [h1, h2] at h
          · subst h2
            simp only [if_neg h1, eq_self_iff_true, if_true] at h
            by_cases hc : cred.username ≠ [] ∧ p ≠ []
            · rw [if_pos hc] at h
              simp only [LoginResult.done.injEq] at h
              subst h
              exact ⟨hc.1, hc.2⟩
            · rw [if_neg hc] at h
              simp at h
        · by_cases h3 : w = str "QUIT"
          · have hqu : ¬(str "QUIT" = str "USER") := by decide
            have hqp : ¬(str "QUIT" = str "PASS") := by decide
            simp [h3, hqu, hqp] at h
          · simp [h1, h2, h3] at h

/-- Witness for C10: `USER` with no argument and `PASS p` (username still
empty) both write nothing. -/
theorem c10_witness :
    (loginStep ⟨[], []⟩ (str "USER\r\n")).2.1 = [] ∧
    (loginStep ⟨[], []⟩ (str "PASS p\r\n")).2.1 = [] :=
  ⟨(c10_login_silent ⟨[], []⟩ (str "USER\r\n")).1 (by decide),
   (c10_login_silent ⟨[], []⟩ (str "PASS p\r\n")).2.1 [str "p"] (by decide)⟩

/-! ## Claim C4: boost resolution in post → email conversion -/

/-- C4: converting a boost uses the boosted status's content, names the
boosted status's author in the subject (`Boost from <author>`), and feeds the
boosted status's URL into the source-URL footer; a plain post uses its own
content and URL with subject `Post`. -/
theorem c4_boost_resolution (dz : Str → Str) (config : Config) (post : MStatus) :
    (∀ r, post.reblog = some r →
      convertSubject post = str "Boost from " ++ r.account.display_name ∧
      convertBody dz config post = contentStages dz config r.content r.url) ∧
    (post.reblog = none →
      convertSubject post = str "Post" ∧
      convertBody dz config post = contentStages dz config post.content post.url) := by
  cases post with
  | mk i c d u reblog rid acct =>
    constructor
    · rintro r rfl
      exact ⟨rfl, rfl⟩
    · rintro rfl
      exact ⟨rfl, rfl⟩

/-- A boosted (inner) status used by the C4 witness. -/
def innerStatus : MStatus :=
  .mk (str "42") (str "<p>inner</p>") (str "2024-01-01T00:00:00.000Z")
    (str "https://ex.test/42") none none ⟨str "Inner Author", str "inner", str "inner@ex.test"⟩

/-- A boost wrapping `innerStatus`, used by the C4 witness. -/
def boostStatus : MStatus :=
  .mk (str "43") (str "") (str "2024-01-02T00:00:00.000Z")
    (str "https://ex.test/43") (some innerStatus) none
    ⟨str "Outer Author", str "outer", str "outer@ex.test"⟩

/-- A plain (non-boost) status used by the C4 witness. -/
def plainStatus : MStatus :=
  .mk (str "44") (str "<p>own</p>") (str "2024-01-03T00:00:00.000Z")
    (str "https://ex.test/44") none none ⟨str "Own Author", str "own", str "own@ex.test"⟩

/-- Witness for C4 at a concrete boost and a concrete plain post. -/
theorem c4_witness :
    (convertSubject boostStatus = str "Boost from " ++ innerStatus.account.display_name ∧
      convertBody id ⟨false, false, none, true⟩ boostStatus =
        contentStages id ⟨false, false, none, true⟩ innerStatus.content innerStatus.url) ∧
    (convertSubject plainStatus = str "Post" ∧
      convertBody id ⟨false, false, none, true⟩ plainStatus =
        contentStages id ⟨false, false, none, true⟩ plainStatus.content plainStatus.url) :=
  ⟨(c4_boost_resolution id ⟨false, false, none, true⟩ boostStatus).1 innerStatus rfl,
   (c4_boost_resolution id ⟨false, false, none, true⟩ plainStatus).2 rfl⟩

/-! ## Claim C8: MAIL FROM address extraction -/

/-- C8 counterexample: on `MAIL FROM:> <user@example.com>` the claim's parse
rule (text between the first `<` and the first `>` after it) yields
`user@example.com`, but `extract_email_addr` takes the first `>` of the whole
line, which precedes the `<`, fails, and leaves the stored sender unchanged
(empty here). -/
theorem c8_counterexample :
    specExtract (str "MAIL FROM:> <user@example.com>") = some (str "user@example.com") ∧
    extract_email_addr (str "MAIL FROM:> <user@example.com>") = none ∧
    mailStep [] (str "MAIL FROM:> <user@example.com>") = ([], mailReply) := by
  decide

/-- C8 (amended): the sender is the slice between the first `<` and the first
`>` of the whole line, accepted only when that `<` precedes that `>`; the
reply is `250 OK` in every case; and when parsing fails the stored sender is
left unchanged (so it stays empty only if nothing set it earlier in the
connection). -/
theorem c8_mail_from (from0 cmd : Str) :
    (mailStep from0 cmd).2 = mailReply ∧
    (∀ i j, cmd.findIdx? (fun c => c = '<') = some i →
      cmd.findIdx? (fun c => c = '>') = some j → i < j →
      mailStep from0 cmd = ((cmd.drop (i + 1)).take (j - (i + 1)), mailReply)) ∧
    (extract_email_addr cmd = none → mailStep from0 cmd = (from0, mailReply)) := by
  refine ⟨?_, fun i j hi hj hij => ?_, fun h => ?_⟩
  · unfold mailStep
    cases extract_email_addr cmd <;> rfl
  · unfold mailStep extract_email_addr
    rw [hi, hj]
    simp only [if_pos hij]
  · simp [mailStep, h]

/-- Witness for C8: a well-formed `MAIL FROM:<a@b>` stores `a@b`, and a line
with no address leaves the sender untouched. -/
theorem c8_witness :
    mailStep [] (str "MAIL FROM:<a@b>") =
      (((str "MAIL FROM:<a@b>").drop (10 + 1)).take (14 - (10 + 1)), mailReply) ∧
    mailStep (str "a@b") (str "MAIL FROM: junk") = (str "a@b", mailReply) :=
  ⟨(c8_mail_from [] (str "MAIL FROM:<a@b>")).2.1 10 14 (by decide) (by decide) (by decide),
   (c8_mail_from (str "a@b") (str "MAIL FROM: junk")).2.2 (by decide)⟩

/-! ## Claim C2: TOP header block and body-line count -/

theorem joinCRLF_append (xs ys : List Str) :
    joinCRLF (xs ++ ys) = joinCRLF xs ++ joinCRLF ys := by
  simp [joinCRLF]

theorem topLoop_body (B : List Str) (limit : Nat) :
    ∀ (cnt : Nat) (out : Str),
      topLoop limit B cnt true out = out ++ joinCRLF (B.take (limit - cnt)) := by
  induction B with
  | nil => intro cnt out; simp [topLoop, joinCRLF]
  | cons b B' ih =>
    intro cnt out
    by_cases hlc : limit ≤ cnt
    · have h0 : limit - cnt = 0 := Nat.sub_eq_zero_of_le hlc
      simp [topLoop, hlc, h0, joinCRLF]
    · have h1 : limit - cnt = (limit - (cnt + 1)) + 1 := by omega
      simp only [topLoop, Bool.true_or, if_true, if_neg hlc]
      rw [ih (cnt + 1) (out ++ b ++ crlf), h1, List.take_succ_cons]
      simp [joinCRLF, List.append_assoc]

theorem topLoop_headers (H : List Str) (hH : ∀ l ∈ H, l.isEmpty = false) (T : List Str)
    (limit : Nat) : ∀ (cnt : Nat) (out : Str),
    topLoop limit (H ++ T) cnt false out = topLoop limit T cnt false (out ++ joinCRLF H) := by
  induction H with
  | nil => intro cnt out; simp [joinCRLF]
  | cons l H' ih =>
    intro cnt out
    have hl : l.isEmpty = false := hH l (List.mem_cons_self _ _)
    have hH' : ∀ x ∈ H', x.isEmpty = false := fun x hx => hH x (List.mem_cons_of_mem _ hx)
    have step : topLoop limit ((l :: H') ++ T) cnt false out =
        topLoop limit (H' ++ T) cnt false (out ++ l ++ crlf) := by
      simp [topLoop, hl]
    rw [step, ih hH' cnt (out ++ l ++ crlf)]
    congr 1
    simp [joinCRLF, List.append_assoc]

theorem topLoop_split (H B : List Str) (hH : ∀ l ∈ H, l.isEmpty = false) (n : Nat) :
    topLoop n (H ++ ([] : Str) :: B) 0 false [] =
      joinCRLF (H ++ if n = 0 then [] else ([] : Str) :: B.take (n - 1)) := by
  rw [topLoop_headers H hH (([] : Str) :: B) n 0 []]
  cases n with
  | zero => simp [topLoop, joinCRLF]
  | succ m =>
    have h0 : ¬(m + 1 ≤ 0) := Nat.not_succ_le_zero m
    have step : topLoop (m + 1) (([] : Str) :: B) 0 false ([] ++ joinCRLF H) =
        topLoop (m + 1) B 1 true (([] ++ joinCRLF H) ++ [] ++ crlf) := by
      simp [topLoop, h0]
    rw [step, topLoop_body B (m + 1) 1]
    have hm : m + 1 - 1 = m := rfl
    simp [hm, joinCRLF_append, joinCRLF, List.append_assoc]

theorem dropWhile_empty_mem (ls : List Str) (h : ([] : Str) ∈ ls) :
    ∃ B, ls.dropWhile (fun l => !l.isEmpty) = ([] : Str) :: B := by
  induction ls with
  | nil => cases h
  | cons a t ih =>
    by_cases ha : a = ([] : Str)
    · subst ha
      exact ⟨t, by simp [List.dropWhile]⟩
    · have ht : ([] : Str) ∈ t := by
        cases h with
        | head => exact absurd rfl ha
        | tail _ h2 => exact h2
      obtain ⟨B, hB⟩ := ih ht
      refine ⟨B, ?_⟩
      rw [List.dropWhile_cons]
      have hpa : (!a.isEmpty) = true := by
        cases a with
        | nil => exact absurd rfl ha
        | cons c cs => rfl
      rw [if_pos hpa]
      exact hB

/-- C2 counterexample: for the in-range message `A: 1\r\n\r\nb1\r\nb2\r\nb3`
and `n = 2` the claim demands the header block plus the first two body lines
(`b1`, `b2`), but the code counts the blank separator against `n` and stops
after `b1`. -/
theorem c2_counterexample :
    handleTOPContent [str "A: 1\r\n\r\nb1\r\nb2\r\nb3"] 1 2 =
      some (topOutput (str "A: 1\r\n\r\nb1\r\nb2\r\nb3") 2) ∧
    topOutput (str "A: 1\r\n\r\nb1\r\nb2\r\nb3") 2 ≠ topSpec (str "A: 1\r\n\r\nb1\r\nb2\r\nb3") 2 := by
  decide

/-- C2 (amended): for a message containing a blank separator line, `TOP i n`
streams the header lines plus — when `n ≥ 1` — the blank separator and only
the first `n - 1` body lines (the separator is counted against `n`); for
`n = 0` the header lines alone, without the separator.  Hence at most `n - 1`
body lines ever appear, never more than the claimed `n`. -/
theorem c2_top_lines (e : Str) (n : Nat) (hsep : ([] : Str) ∈ rustLines e) :
    topOutput e n =
      joinCRLF ((rustLines e).takeWhile (fun l => !l.isEmpty) ++
        if n = 0 then [] else ([] : Str) :: (bodyLines e).take (n - 1)) := by
  obtain ⟨B, hB⟩ := dropWhile_empty_mem (rustLines e) hsep
  have hsplit : (rustLines e).takeWhile (fun l => !l.isEmpty) ++ ([] : Str) :: B =
      rustLines e := by
    rw [← hB]
    simp [List.takeWhile_append_dropWhile]
  have hH : ∀ l ∈ (rustLines e).takeWhile (fun l => !l.isEmpty), l.isEmpty = false := by
    intro l hl
    have hp := List.mem_takeWhile_imp hl
    simpa using hp
  have hbody : bodyLines e = B := by
    rw [bodyLines, hB]
    rfl
  rw [topOutput]
  conv_lhs => rw [← hsplit]
  rw [topLoop_split _ _ hH, hbody]

/-- Witness for C2's amended theorem at a concrete two-body-line message with
`n = 1`: only the separator is emitted after the headers. -/
theorem c2_witness :
    topOutput (str "A: 1\r\n\r\nb1\r\nb2") 1 =
      joinCRLF ((rustLines (str "A: 1\r\n\r\nb1\r\nb2")).takeWhile (fun l => !l.isEmpty) ++
        if (1 : Nat) = 0 then []
        else ([] : Str) :: (bodyLines (str "A: 1\r\n\r\nb1\r\nb2")).take (1 - 1)) :=
  c2_top_lines (str "A: 1\r\n\r\nb1\r\nb2") 1 (by decide)

/-! ## Replace/strip machinery lemmas for C5 and C6 -/

theorem raf_mono (pat rep : Str) :
    ∀ (f : Nat), ∀ (s : Str) (g : Nat), s.length ≤ f → s.length ≤ g →
      replaceAllFuel pat rep f s = replaceAllFuel pat rep g s := by
  intro f
  induction f with
  | zero =>
    intro s g hf _
    have hs : s = [] := List.eq_nil_of_length_eq_zero (Nat.le_zero.mp hf)
    subst hs
    cases g <;> rfl
  | succ f ih =>
    intro s g hf hg
    cases s with
    | nil => cases g <;> rfl
    | cons c rest =>
      have hrest : rest.length ≤ f := by
        simpa [List.length_cons] using hf
      cases g with
      | zero => simp [List.length_cons] at hg
      | succ g' =>
        have hrest' : rest.length ≤ g' := by
          simpa [List.length_cons] using hg
        simp only [replaceAllFuel]
        by_cases hp : isPre pat (c :: rest)
        · rw [if_pos hp, if_pos hp]
          have hd : (List.drop (pat.length - 1) rest).length ≤ rest.length := by
            rw [List.length_drop]
            exact Nat.sub_le _ _
          rw [ih (List.drop (pat.length - 1) rest) g' (le_trans hd hrest) (le_trans hd hrest')]
        · rw [if_neg hp, if_neg hp, ih rest g' hrest hrest']

theorem replaceAll_cons (pat rep : Str) (c : Char) (rest : Str) :
    replaceAll pat rep (c :: rest) =
      if isPre pat (c :: rest) then
        rep ++ replaceAll pat rep (List.drop (pat.length - 1) rest)
      else c :: replaceAll pat rep rest := by
  show replaceAllFuel pat rep (c :: rest).length (c :: rest) = _
  have hlen : (c :: rest).length = rest.length + 1 := rfl
  rw [hlen]
  simp only [replaceAllFuel]
  by_cases hp : isPre pat (c :: rest)
  · rw [if_pos hp, if_pos hp]
    have hd : (List.drop (pat.length - 1) rest).length ≤ rest.length := by
      rw [List.length_drop]
      exact Nat.sub_le _ _
    rw [raf_mono pat rep rest.length (List.drop (pat.length - 1) rest)
      (List.drop (pat.length - 1) rest).length hd (le_refl _)]
    rfl
  · rw [if_neg hp, if_neg hp]
    rfl

theorem isPre_mem (pat : Str) :
    ∀ (s : Str), isPre pat s = true → ∀ x ∈ pat, x ∈ s := by
  induction pat with
  | nil => intro s _ x hx; cases hx
  | cons a as ih =>
    intro s h x hx
    cases s with
    | nil => cases h
    | cons b bs =>
      simp only [isPre, Bool.and_eq_true, beq_iff_eq] at h
      obtain ⟨rfl, h2⟩ := h
      cases hx with
      | head => exact List.mem_cons_self _ _
      | tail _ hx2 => exact List.mem_cons_of_mem _ (ih bs h2 x hx2)

theorem replaceAll_not_mem (pat rep : Str) (c : Char) (hc : c ∈ pat) :
    ∀ (s : Str), c ∉ s → replaceAll pat rep s = s := by
  intro s
  induction s with
  | nil => intro _; rfl
  | cons a rest ih =>
    intro hs
    have hp : isPre pat (a :: rest) = false := by
      cases hpa : isPre pat (a :: rest) with
      | false => rfl
      | true => exact absurd (isPre_mem pat _ hpa c hc) hs
    rw [replaceAll_cons, hp]
    simp only [Bool.false_eq_true, if_false]
    rw [ih (fun h => hs (List.mem_cons_of_mem _ h))]

theorem replaceAll_no_match (pat rep : Str) :
    ∀ (s : Str), hasMatch pat s = false → replaceAll pat rep s = s := by
  intro s
  induction s with
  | nil => intro _; rfl
  | cons a rest ih =>
    intro h
    simp only [hasMatch, Bool.or_eq_false_iff] at h
    obtain ⟨h1, h2⟩ := h
    rw [replaceAll_cons, h1]
    simp only [Bool.false_eq_true, if_false]
    rw [ih h2]

theorem stripTagsFuel_no_lt :
    ∀ (f : Nat) (s : Str), s.length ≤ f → '<' ∉ s → stripTagsFuel f s = s := by
  intro f
  induction f with
  | zero => intro s _ _; cases s <;> rfl
  | succ f ih =>
    intro s hf hs
    cases s with
    | nil => rfl
    | cons c rest =>
      have hc : ¬(c = '<') := fun h => hs (h ▸ List.mem_cons_self _ _)
      simp only [stripTagsFuel, if_neg hc]
      rw [ih rest (by simpa [List.length_cons] using hf)
        (fun h => hs (List.mem_cons_of_mem _ h))]

theorem stripTags_no_lt (s : Str) (hs : '<' ∉ s) : stripTags s = s :=
  stripTagsFuel_no_lt s.length s (le_refl _) hs

/-! ## Claim C5: the markup-stripping pipeline -/

/-- C5 counterexample: on `a<br />b\n\n\n\nc` the pipeline as the claim words
it would drop the unlisted `<br />` tag (yielding `ab…`) and collapse the
four-newline run to exactly two, giving `ab\n\nc`; the code maps `<br />` to
a newline and its single `replace("\n\n\n","\n\n")` pass leaves three
newlines, giving `a\nb\n\n\nc`. -/
theorem c5_counterexample :
    html_to_text (str "a<br />b\n\n\n\nc") ≠ html_to_text_spec (str "a<br />b\n\n\n\nc") := by
  decide

theorem collapse_replicate (k : Nat) :
    replaceAll nl3 nl2 (List.replicate k '\n') = List.replicate (k - k / 3) '\n' := by
  induction k using Nat.strong_induction_on with
  | _ k ih =>
    match k with
    | 0 => decide
    | 1 => decide
    | 2 => decide
    | (m + 3) =>
      have h3 : isPre nl3 (List.replicate (m + 3) '\n') = true := rfl
      have hstep : List.replicate (m + 3) '\n' = '\n' :: List.replicate (m + 2) '\n' := rfl
      rw [hstep, replaceAll_cons]
      rw [hstep] at h3
      rw [if_pos h3]
      have hd : List.drop (nl3.length - 1) (List.replicate (m + 2) '\n') =
          List.replicate m '\n' := rfl
      rw [hd, ih m (by omega)]
      have h1 : (m + 3) / 3 = m / 3 + 1 := Nat.add_div_right m (by norm_num)
      have h2 : m / 3 ≤ m := Nat.div_le_self m 3
      have harith : (m + 3) - (m + 3) / 3 = (m - m / 3) + 2 := by omega
      rw [harith]
      rfl

/-- C5 (amended): the markup-stripping function is the claim's pipeline with
two corrections — `<br />` (with a space) is also mapped to a newline, and
the newline collapsing is a single left-to-right `replace("\n\n\n", "\n\n")`
pass rather than a full collapse: a run of `k` newlines shrinks to
`k - k / 3` newlines, so runs of four or more keep three or more. -/
theorem c5_markup_pipeline :
    (∀ s, html_to_text s = html_to_text_amended s) ∧
    (∀ k, replaceAll nl3 nl2 (List.replicate k '\n') = List.replicate (k - k / 3) '\n') :=
  ⟨fun _ => rfl, collapse_replicate⟩

/-! ## Claim C6: idempotence on plain text -/

theorem splitP_ne_nil (p : Char → Bool) : ∀ (s : Str), splitP p s ≠ [] := by
  intro s
  cases s with
  | nil => simp [splitP]
  | cons c rest =>
    simp only [splitP]
    by_cases hp : p c
    · simp [hp]
    · simp only [hp, Bool.false_eq_true, if_false]
      cases hsp : splitP p rest <;> simp

theorem joinNL_splitOnNL : ∀ (s : Str), joinNL (splitOnNL s) = s := by
  intro s
  induction s with
  | nil => rfl
  | cons c rest ih =>
    rw [splitOnNL, splitP]
    by_cases hc : c == '\n'
    · rw [if_pos hc]
      rcases hsp : splitP (fun c => c == '\n') rest with _ | ⟨l, ls⟩
      · exact absurd hsp (splitP_ne_nil _ rest)
      · have hcn : c = '\n' := by simpa using hc
        subst hcn
        rw [joinNL]
        rw [splitOnNL, hsp] at ih
        rw [ih]
        rfl
    · rw [if_neg hc]
      rcases hsp : splitP (fun c => c == '\n') rest with _ | ⟨l, ls⟩
      · exact absurd hsp (splitP_ne_nil _ rest)
      · rw [splitOnNL, hsp] at ih
        cases ls with
        | nil => rw [joinNL]; rw [joinNL] at ih; rw [ih]
        | cons l2 ls2 =>
          rw [joinNL]
          rw [joinNL] at ih
          rw [List.cons_append, ih]

theorem mem_splitP (p : Char → Bool) :
    ∀ (s : Str) (l : Str), l ∈ splitP p s → ∀ c ∈ l, c ∈ s := by
  intro s
  induction s with
  | nil =>
    intro l hl c hc
    simp only [splitP] at hl
    simp only [List.mem_singleton] at hl
    subst hl
    cases hc
  | cons a rest ih =>
    intro l hl c hc
    simp only [splitP] at hl
    by_cases hp : p a
    · rw [if_pos hp] at hl
      cases hl with
      | head => cases hc
      | tail _ h2 => exact List.mem_cons_of_mem _ (ih l h2 c hc)
    · rw [if_neg hp] at hl
      rcases hsp : splitP p rest with _ | ⟨m, ms⟩
      · exact absurd hsp (splitP_ne_nil _ rest)
      · rw [hsp] at hl
        cases hl with
        | head =>
          cases hc with
          | head => exact List.mem_cons_self _ _
          | tail _ hc2 =>
            exact List.mem_cons_of_mem _
              (ih m (hsp ▸ List.mem_cons_self _ _) c hc2)
        | tail _ h2 =>
          exact List.mem_cons_of_mem _
            (ih l (hsp ▸ List.mem_cons_of_mem _ h2) c hc)

theorem stripCR_no_cr (l : Str) (h : '\r' ∉ l) : stripCR l = l := by
  rw [stripCR, if_neg]
  intro heq
  exact h (List.mem_of_mem_getLast? heq)

theorem trimLineEnds_fixed (s : Str) (hr : '\r' ∉ s)
    (hlines : ∀ l ∈ splitOnNL s, trimEndWs l = l)
    (hlast : (splitOnNL s).getLast? ≠ some []) (hne : s ≠ []) :
    trimLineEnds s = s := by
  rw [trimLineEnds, rustLines, if_neg hne]
  simp only [if_neg hlast]
  have hmap1 : (splitOnNL s).map stripCR = splitOnNL s := by
    have hcong : ∀ l ∈ splitOnNL s, stripCR l = id l := fun l hl =>
      stripCR_no_cr l (fun hcr => hr (mem_splitP (fun c => c == '\n') s l hl '\r' hcr))
    rw [List.map_congr_left hcong, List.map_id]
  have hmap2 : (splitOnNL s).map trimEndWs = splitOnNL s := by
    have hcong2 : ∀ l ∈ splitOnNL s, trimEndWs l = id l := hlines
    rw [List.map_congr_left hcong2, List.map_id]
  rw [hmap1, hmap2, joinNL_splitOnNL]

/-- A plain-text string in the claim's sense: it contains no HTML tags and no
HTML entities (ensured here by the absence of the characters `<` and `&`). -/
def plainText (s : Str) : Prop := '<' ∉ s ∧ '&' ∉ s

/-- A plain-text string in normal form: additionally carriage-return-free,
non-empty, with no trailing whitespace on any line, not ending in a newline,
with no run of three consecutive newlines, and with no leading or trailing
whitespace overall. -/
def normalPlain (s : Str) : Prop :=
  '<' ∉ s ∧ '&' ∉ s ∧ '\r' ∉ s ∧ s ≠ [] ∧
  (∀ l ∈ splitOnNL s, trimEndWs l = l) ∧
  (splitOnNL s).getLast? ≠ some [] ∧
  hasMatch nl3 s = false ∧
  trimStartWs s = s ∧ trimEndWs s = s

theorem html_to_text_normal_fixed (s : Str) (h : normalPlain s) : html_to_text s = s := by
  obtain ⟨hlt, hamp, hcr, hne, hlines, hlast, hnl3, hts, hte⟩ := h
  have h1 : tagNewlines s = s := by
    rw [tagNewlines,
      replaceAll_not_mem (str "<br>") nl '<' (by decide) s hlt,
      replaceAll_not_mem (str "<br/>") nl '<' (by decide) s hlt,
      replaceAll_not_mem (str "<br />") nl '<' (by decide) s hlt,
      replaceAll_not_mem (str "</p>") nl '<' (by decide) s hlt,
      replaceAll_not_mem (str "</div>") nl '<' (by decide) s hlt,
      replaceAll_not_mem (str "</li>") nl '<' (by decide) s hlt]
  have h2 : stripTags s = s := stripTags_no_lt s hlt
  have h3 : decodeEntities s = s := by
    rw [decodeEntities,
      replaceAll_not_mem (str "&lt;") (str "<") '&' (by decide) s hamp,
      replaceAll_not_mem (str "&gt;") (str ">") '&' (by decide) s hamp,
      replaceAll_not_mem (str "&amp;") (str "&") '&' (by decide) s hamp,
      replaceAll_not_mem (str "&quot;") (str "\"") '&' (by decide) s hamp,
      replaceAll_not_mem (str "&apos;") (str "\x27") '&' (by decide) s hamp,
      replaceAll_not_mem (str "&#39;") (str "\x27") '&' (by decide) s hamp,
      replaceAll_not_mem (str "&nbsp;") (str " ") '&' (by decide) s hamp]
  have h4 : trimLineEnds s = s := trimLineEnds_fixed s hcr hlines hlast hne
  have h5 : replaceAll nl3 nl2 s = s := replaceAll_no_match nl3 nl2 s hnl3
  rw [html_to_text, h1, h2, h3, h4, h5, trimWs, hts, hte]

/-- C6 counterexample: `a\n\n\n\n\nb` is plain text (no tags, no entities),
yet one application of the stripping function shortens its newline run from
five to four, and a second application shortens it again to three — the
function is not even idempotent on this plain-text input, let alone the
identity. -/
theorem c6_counterexample :
    plainText (str "a\n\n\n\n\nb") ∧
    html_to_text (str "a\n\n\n\n\nb") ≠ str "a\n\n\n\n\nb" ∧
    html_to_text (html_to_text (str "a\n\n\n\n\nb")) ≠ html_to_text (str "a\n\n\n\n\nb") := by
  constructor
  · constructor <;> decide
  · constructor <;> decide

/-- C6 (amended): the stripping function is the identity — and therefore
idempotent — on plain-text strings in normal form (no `<`, `&` or CR, no
trailing whitespace on any line, not ending in a newline, no triple-newline
run, and no surrounding whitespace); general plain text is not preserved,
as runs of five or more newlines shrink on every application. -/
theorem c6_idempotent_normal (s : Str) (h : normalPlain s) :
    html_to_text s = s ∧ html_to_text (html_to_text s) = html_to_text s := by
  have h1 : html_to_text s = s := html_to_text_normal_fixed s h
  exact ⟨h1, by rw [h1]; exact h1⟩

/-- Witness for C6 at the normal-form plain string `hello\nworld`. -/
theorem c6_witness :
    html_to_text (str "hello\nworld") = str "hello\nworld" ∧
    html_to_text (html_to_text (str "hello\nworld")) = html_to_text (str "hello\nworld") :=
  c6_idempotent_normal (str "hello\nworld")
    ⟨by decide, by decide, by decide, by decide, by decide, by decide, by decide,
     by decide, by decide⟩

end Mop3
